import Mathlib

/-!
Verification of the mustache-style template engine in `mustache.go`
(package `web`).  The Go source is shallowly embedded below:

* dynamic data values (`reflect.Value`) become the inductive `Value`,
  with `Option Value` standing for a possibly-invalid `reflect.Value`
  (`none` = the zero `reflect.Value{}`); `Value.vNull` stands for a
  valid interface value holding `nil`;
* the scanner (`readString`) works on the template data as a `List Char`
  with an explicit read position and line counter;
* the recursive-descent parser (`parse`, `parseSection`, `parsePartial`,
  `ParseFile`, `ParseString`) is embedded as fuel-indexed functions; the
  fuel layer (`Option`, `none` = out of fuel) is separate from the
  parse-error layer (`Except MErr`); the file system touched by partial
  loading is passed explicitly as an association list of
  (path, contents);
* the renderer (`renderElement`, `renderSection`, `renderTemplate`,
  `Render`) is embedded as fuel-indexed functions returning
  `Option String`, where `none` marks a Go runtime panic
  (index out of range) or fuel exhaustion.

Modelling notes, matching the Go source:
* Go struct and map lookups both reduce to name/key lookup; the model
  folds both into `Value.vMap` (the renderer treats `reflect.Map` and
  `reflect.Struct` identically, and `lookup` consults them the same
  way, so nothing the claims mention distinguishes them).  Pointers are
  not modelled; `Value.vNull` plays the role of the one indirection
  (`reflect.Interface` holding nil) the claims can observe.  Values
  have no methods, so `NumMethod() = 0` throughout.
* Go arrays (`reflect.Array`) are not modelled; collections are slices
  (`Value.vList`).
* `readString` with an empty marker panics in Go (`s[0]` out of range);
  the model is total there, and every theorem about it assumes a
  non-empty marker.  Likewise a delimiter tag whose trimmed body is
  exactly "=" panics in Go (`tag[1:0]`); the model is total there and
  no theorem touches that input.
-/

/-- Dynamic data values handed to the renderer, standing for the Go
`interface{}` values inspected through `reflect`.  `vNull` is a valid
interface value holding `nil`. -/
inductive Value : Type where
  | vNull : Value
  | vBool : Bool → Value
  | vInt : Int → Value
  | vStr : String → Value
  | vList : List Value → Value
  | vMap : List (String × Value) → Value

mutual
/-- A computable size measure for `Value`, used to pick enough fuel for
`stringify`. -/
def valSize : Value → Nat
  | .vNull => 1
  | .vBool _ => 1
  | .vInt _ => 1
  | .vStr _ => 1
  | .vList xs => valSizeL xs + 1
  | .vMap prs => valSizeM prs + 1
def valSizeL : List Value → Nat
  | [] => 0
  | v :: vs => valSize v + valSizeL vs + 1
def valSizeM : List (String × Value) → Nat
  | [] => 0
  | (_, v) :: ps => valSize v + valSizeM ps + 1
end

/-- Embedding of `fmt.Sprint` on the modelled values, fuel-indexed to
keep the recursion structural; `stringify` below applies enough fuel. -/
def stringifyF : Nat → Value → String
  | 0, _ => ""
  | f+1, v =>
    match v with
    | .vNull => "<nil>"
    | .vBool b => cond b "true" "false"
    | .vInt n => toString n
    | .vStr s => s
    | .vList xs => "[" ++ String.intercalate " " (xs.map (stringifyF f)) ++ "]"
    | .vMap prs =>
        "map[" ++ String.intercalate " " (prs.map (fun kv => kv.1 ++ ":" ++ stringifyF f kv.2)) ++ "]"

/-- Embedding of `fmt.Sprint` on the modelled values. -/
def stringify (v : Value) : String := stringifyF (valSize v) v

/-- Modelled from the spec: the `htmlEscape` helper called by
`renderElement` is not among the given source files.  Per the spec it
performs the five HTML substitutions `&`→`&amp;`, `"`→`&quot;`,
`'`→`&apos;`, `<`→`&lt;`, `>`→`&gt;`, with the ampersand substituted
first (so the ampersands introduced by the other four replacements are
not re-escaped); that is the per-character mapping below. -/
def escapeChar (c : Char) : String :=
  if c = '&' then "&amp;"
  else if c = '\x22' then "&quot;"
  else if c = '\x27' then "&apos;"
  else if c = '<' then "&lt;"
  else if c = '>' then "&gt;"
  else String.mk [c]

/-- Modelled from the spec: `htmlEscape` applied to a whole string. -/
def htmlEscape (s : String) : String := String.join (s.data.map escapeChar)

/-- Splits a name at its first `'.'`, returning the parts before and
after it, or `none` when there is no dot.  This is
`strings.SplitN(name, ".", 2)` (two parts iff the result is `some`)
and also decides `strings.Contains(name, ".")`. -/
def splitDot : List Char → Option (List Char × List Char)
  | [] => none
  | c :: cs =>
      if c = '.' then some ([], cs)
      else (splitDot cs).map (fun pr => (c :: pr.1, pr.2))

/-- Looks a name up in the modelled map/struct value:
`reflect.Value.MapIndex` / `FieldByName`, `none` when the key is
absent (an invalid `reflect.Value`). -/
def lookupKey : List (String × Value) → List Char → Option Value
  | [], _ => none
  | (k, v) :: prs, name => if k.data = name then some v else lookupKey prs name

/-- One frame of the chain walk inside Go `lookup`: the inner
`for v.IsValid()` loop over one context.  The modelled values have no
methods, so the method scan finds nothing; `"."` returns the frame
itself; map/struct values look the key up; `vNull` (interface holding
nil) unwraps to an invalid value and falls out of the loop; any other
kind hits the `default: continue Outer` branch.  `none` means the walk
continues with the next frame. -/
def walkOne (ctx : Option Value) (name : List Char) : Option Value :=
  match ctx with
  | none => none
  | some v =>
      if name = ['.'] then some v
      else
        match v with
        | .vMap prs => lookupKey prs name
        | _ => none

/-- The `Outer` loop of Go `lookup`: walk the chain front to back and
return the first frame's hit. -/
def lookupWalk : List (Option Value) → List Char → Option Value
  | [], _ => none
  | ctx :: rest, name =>
      match walkOne ctx name with
      | some v => some v
      | none => lookupWalk rest name

/-- Fuel-indexed embedding of Go `lookup`: dotted names split at the
first dot, resolve the head against the full chain and the rest
against a singleton chain holding that result; `"."` and undotted
names walk the chain.  `lookupLC` below applies enough fuel. -/
def lookupF : Nat → List (Option Value) → List Char → Option Value
  | 0, _, _ => none
  | fuel+1, chain, name =>
      match splitDot name with
      | some pr =>
          if name = ['.'] then lookupWalk chain name
          else lookupF fuel [lookupF fuel chain pr.1] pr.2
      | none => lookupWalk chain name

/-- Embedding of Go `lookup` (`name.length + 1` fuel always suffices:
each split strips the dot, so both parts are strictly shorter). -/
def lookupLC (chain : List (Option Value)) (name : List Char) : Option Value :=
  lookupF (name.length + 1) chain name

/-- Embedding of Go `indirect` on a single modelled value: the only
indirection the model carries is the nil interface, which unwraps to an
invalid value. -/
def indirectV : Value → Option Value
  | .vNull => none
  | v => some v

/-- Go `indirect` on a possibly-invalid value (`indirect` returns an
invalid argument unchanged). -/
def indirectOpt : Option Value → Option Value
  | none => none
  | some v => indirectV v

/-- Embedding of Go `isEmpty`: invalid values, nil interfaces, `false`
booleans and zero-length slices are empty; everything else is not. -/
def isEmpty (v : Option Value) : Bool :=
  match v with
  | none => true
  | some .vNull => true
  | some w =>
      match indirectOpt (some w) with
      | none => true
      | some (.vBool b) => !b
      | some (.vList xs) => xs.length == 0
      | some _ => false

mutual
/-- The element tree: `textElement`, `varElement` (with the Go `raw`
flag), `sectionElement` (name, inverted flag, start line, children) and
an embedded, already-parsed partial `Template`. -/
inductive PElem : Type where
  | text : List Char → PElem
  | var : List Char → Bool → PElem
  | sec : List Char → Bool → Nat → List PElem → PElem
  | ptl : PTemplate → PElem
/-- The Go `Template` struct: data, otag, ctag, p, curline, dir, elems. -/
inductive PTemplate : Type where
  | mk : List Char → List Char → List Char → Nat → Nat → String → List PElem → PTemplate
end

/-- The `elems` field of a `Template`. -/
def PTemplate.elems : PTemplate → List PElem
  | .mk _ _ _ _ _ _ es => es

/-- The `otag` field of a `Template`. -/
def PTemplate.otag : PTemplate → List Char
  | .mk _ o _ _ _ _ _ => o

/-- The `ctag` field of a `Template`. -/
def PTemplate.ctag : PTemplate → List Char
  | .mk _ _ c _ _ _ _ => c

/-- The `dir` field of a `Template`. -/
def PTemplate.dir : PTemplate → String
  | .mk _ _ _ _ _ d _ => d

mutual
/-- Does an element contain a section element, looking through nested
sections and embedded partial templates? -/
def containsSec : PElem → Bool
  | .text _ => false
  | .var _ _ => false
  | .sec _ _ _ _ => true
  | .ptl (.mk _ _ _ _ _ _ es) => containsSecL es
/-- Does any element of the list contain a section element? -/
def containsSecL : List PElem → Bool
  | [] => false
  | e :: es => containsSec e || containsSecL es
end

/-- The output of a resolved variable element: nothing when the name is
undefined, otherwise the stringified value, HTML-escaped unless the
element is raw.  This is the `*varElement` branch of `renderElement`. -/
def varOut (name : List Char) (raw : Bool) (chain : List (Option Value)) : String :=
  match lookupLC chain name with
  | none => ""
  | some v => if raw then stringify v else htmlEscape (stringify v)

mutual
/-- Fuel-indexed embedding of Go `renderElement`.  `none` marks a Go
panic (or fuel exhaustion); the section branch reads the chain's last
element before anything else, panicking on an empty chain exactly as
`contextChain[len(contextChain)-1]` does. -/
def renderElemF : Nat → PElem → List (Option Value) → Option String
  | 0, _, _ => none
  | fuel+1, e, chain =>
      match e with
      | .text s => some (String.mk s)
      | .var name raw => some (varOut name raw chain)
      | .sec name inv _ elems =>
          match chain.getLast? with
          | none => none
          | some context =>
              let value := lookupLC chain name
              let emp := isEmpty value
              if (emp && !inv) || (!emp && inv) then some ""
              else
                let contexts : List (Option Value) :=
                  if !inv then
                    match indirectOpt value with
                    | some (.vList xs) => xs.map some
                    | some (.vMap _) => [value]
                    | _ => [context]
                  else [context]
                renderEachF fuel elems chain contexts
      | .ptl t => renderListF fuel (PTemplate.elems t) chain
/-- Renders a list of elements in order against one chain,
concatenating the output (the loops in `renderTemplate` and
`renderSection`). -/
def renderListF : Nat → List PElem → List (Option Value) → Option String
  | 0, _, _ => none
  | _+1, [], _ => some ""
  | fuel+1, e :: es, chain =>
      (renderElemF fuel e chain).bind fun s =>
        (renderListF fuel es chain).map (fun r => s ++ r)
/-- The `for _, ctx := range contexts` loop of `renderSection`: renders
the section's children once per context, each time with that context
pushed as the new first frame of the chain. -/
def renderEachF : Nat → List PElem → List (Option Value) → List (Option Value) → Option String
  | 0, _, _, _ => none
  | _+1, _, _, [] => some ""
  | fuel+1, elems, chain, c :: cs =>
      (renderListF fuel elems (c :: chain)).bind fun s =>
        (renderEachF fuel elems chain cs).map (fun r => s ++ r)
end

/-- The parser/scanner state: the `Template` struct fields the parse
phase mutates (`data`, `otag`, `ctag`, `p`, `curline`, `dir`). -/
structure ParserState : Type where
  data : List Char
  otag : List Char
  ctag : List Char
  p : Nat
  curline : Nat
  dir : String
deriving DecidableEq, Repr

/-- The scanning loop of `readString`: starting at absolute position
`i` (with `rem` the data from `i` on), find the first position where
`marker` occurs, counting newlines at every visited position including
the matching one; `none` when the remaining data is shorter than the
marker (Go `i+len(s) > len(template.data)`), the end-of-input case. -/
def scanFor (marker : List Char) (i nl : Nat) : List Char → Option (Nat × Nat)
  | [] =>
      if 0 < marker.length then none
      else if marker.isPrefixOf [] then some (i, nl) else none
  | c :: rest =>
      if (c :: rest).length < marker.length then none
      else if marker.isPrefixOf (c :: rest) then
        some (i, if c = '\n' then nl + 1 else nl)
      else scanFor marker (i+1) (if c = '\n' then nl + 1 else nl) rest

/-- Embedding of Go `readString`: returns the text from the read
position up to and including the first occurrence of `s`, a flag that
is `true` exactly when `io.EOF` is returned, and the updated state.  On
EOF the remaining text is returned and the state is unchanged. -/
def readString (st : ParserState) (s : List Char) : List Char × Bool × ParserState :=
  match scanFor s st.p 0 (st.data.drop st.p) with
  | none => (st.data.drop st.p, true, st)
  | some (i, nl) =>
      ((st.data.take (i + s.length)).drop st.p, false,
        { st with p := i + s.length, curline := st.curline + nl })

/-- Go `unicode.IsSpace` restricted to the ASCII space characters. -/
def isSpaceChar (c : Char) : Bool :=
  c = ' ' || c = '\t' || c = '\n' || c = '\x0b' || c = '\x0c' || c = '\r'

/-- Embedding of `strings.TrimSpace` on character lists. -/
def trimSpace (s : List Char) : List Char :=
  (((s.dropWhile isSpaceChar).reverse.dropWhile isSpaceChar)).reverse

/-- Splits at the first space, `strings.SplitN(s, " ", 2)`: the result
is `some` exactly when the separator occurs, i.e. when Go gets two
parts. -/
def splitFirstSpace : List Char → Option (List Char × List Char)
  | [] => none
  | c :: cs =>
      if c = ' ' then some ([], cs)
      else (splitFirstSpace cs).map (fun pr => (c :: pr.1, pr.2))

/-- The newline skip right after an opening section tag: consume one
`"\n"` or `"\r\n"` at the read position (the line counter is not
touched, exactly as in the Go source). -/
def skipNewline (st : ParserState) : ParserState :=
  if st.data.get? st.p = some '\n' then { st with p := st.p + 1 }
  else if st.data.get? st.p = some '\r' && st.data.get? (st.p + 1) = some '\n' then
    { st with p := st.p + 2 }
  else st

/-- Parse-phase errors: `parseError{line, message}` or a plain error
(`errors.New`), the latter produced by partial resolution and file
loading. -/
inductive MErr : Type where
  | parseErr : Nat → String → MErr
  | genErr : String → MErr
deriving DecidableEq, Repr

/-- The message text of an error: `parseError.Error()` formats
`"line %d: %s"`; a plain error is its message. -/
def errMessage : MErr → String
  | .parseErr line msg => "line " ++ toString line ++ ": " ++ msg
  | .genErr msg => msg

/-- The model of the file system seen by partial loading: an
association list from path to file contents; a path exists iff it is a
key. -/
def FileSys : Type := List (String × String)

/-- Embedding of `path.Join(d, n)` for the shapes the engine produces:
joining with a separator unless one side makes it redundant. -/
def joinPath (d n : String) : String :=
  if d = "" then n
  else if d.data.getLast? = some '/' then d ++ n
  else d ++ "/" ++ n

/-- Embedding of the directory half of `path.Split`: everything up to
and including the final slash. -/
def dirOf (f : String) : String :=
  String.mk ((f.data.reverse.dropWhile (fun c => c ≠ '/')).reverse)

/-- The six candidate paths `parsePartial` tries for name `N` under
base directory `D`, in order:
`D/N`, `D/N.mustache`, `D/N.stache`, `N`, `N.mustache`, `N.stache`. -/
def candidateFiles (dir name : String) : List String :=
  [joinPath dir name, joinPath dir (name ++ ".mustache"), joinPath dir (name ++ ".stache"),
    name, name ++ ".mustache", name ++ ".stache"]

/-- The `os.Open` probe loop of `parsePartial`: the first candidate
path that exists. -/
def firstExisting (fs : FileSys) (dir name : String) : Option String :=
  (candidateFiles dir name).find? (fun f => (List.lookup f fs).isSome)

/-- The initial parser state for data parsed with base directory
`dir`: position 0, line 1, delimiters `{{` and `}}`. -/
def initState (data : List Char) (dir : String) : ParserState :=
  ⟨data, ['\x7b', '\x7b'], ['\x7d', '\x7d'], 0, 1, dir⟩

/-- The tag-body scan shared by both parse loops: when a `{` follows
the open delimiter the closing marker is `"}" + ctag` (raw form),
otherwise it is the close delimiter. -/
def scanBody (st1 : ParserState) : List Char × Bool × ParserState :=
  if st1.data.get? st1.p = some '\x7b' then readString st1 ('\x7d' :: st1.ctag)
  else readString st1 st1.ctag

/-- The trimmed tag body (Go `tag`): the scanned text with the close
delimiter cut off, then `strings.TrimSpace`. -/
def tagOf (st1 : ParserState) : List Char :=
  trimSpace ((scanBody st1).1.take ((scanBody st1).1.length - st1.ctag.length))

mutual
/-- Fuel-indexed embedding of the top-level Go `parse` loop, carrying
the elements accumulated so far.  `none` is fuel exhaustion, `Except`
carries the parse outcome.  Each loop iteration runs through three
staged functions (open-delimiter scan here, then tag-body scan, then
tag dispatch), mirroring the phases of the Go loop body. -/
def parseLoop (fs : FileSys) : Nat → ParserState → List PElem →
    Option (Except MErr (List PElem × ParserState))
  | 0, _, _ => none
  | fuel+1, st, acc =>
      if (readString st st.otag).2.1 then
        some (.ok (acc ++ [.text (readString st st.otag).1], (readString st st.otag).2.2))
      else
        parseLoopTag fs fuel (readString st st.otag).2.2
          (acc ++ [.text ((readString st st.otag).1.take
            ((readString st st.otag).1.length - st.otag.length))])
/-- Tag-body scan stage of the top-level loop: end of input here is
the `unmatched open tag` error. -/
def parseLoopTag (fs : FileSys) : Nat → ParserState → List PElem →
    Option (Except MErr (List PElem × ParserState))
  | 0, _, _ => none
  | fuel+1, st1, acc1 =>
      if (scanBody st1).2.1 then
        some (.error (.parseErr (scanBody st1).2.2.curline "unmatched open tag"))
      else parseLoopSwitch fs fuel (scanBody st1).2.2 acc1 (tagOf st1)
/-- Tag dispatch stage of the top-level loop: the `switch tag[0]` of
Go `parse`. -/
def parseLoopSwitch (fs : FileSys) : Nat → ParserState → List PElem → List Char →
    Option (Except MErr (List PElem × ParserState))
  | 0, _, _, _ => none
  | fuel+1, st2, acc1, tag =>
      match tag with
      | [] => some (.error (.parseErr st2.curline "empty tag"))
      | c :: rest =>
          if c = '!' then parseLoop fs fuel st2 acc1
          else if c = '#' || c = '^' then
            match parseSectionLoop fs fuel (skipNewline st2) (trimSpace rest) (c = '^')
                (skipNewline st2).curline [] with
            | none => none
            | some (.error e) => some (.error e)
            | some (.ok pr) =>
                parseLoop fs fuel pr.2
                  (acc1 ++ [.sec (trimSpace rest) (c = '^') (skipNewline st2).curline pr.1])
          else if c = '/' then some (.error (.parseErr st2.curline "unmatched close tag"))
          else if c = '>' then
            match parsePtl fs fuel st2.dir (String.mk (trimSpace rest)) with
            | none => none
            | some (.error e) => some (.error e)
            | some (.ok t) => parseLoop fs fuel st2 (acc1 ++ [.ptl t])
          else if c = '=' then
            if tag.getLast? ≠ some '=' then
              some (.error (.parseErr st2.curline "Invalid meta tag"))
            else
              match splitFirstSpace (trimSpace (rest.take (rest.length - 1))) with
              | some pr => parseLoop fs fuel { st2 with otag := pr.1, ctag := pr.2 } acc1
              | none => parseLoop fs fuel st2 acc1
          else if c = '\x7b' then
            if tag.getLast? = some '\x7d' then
              parseLoop fs fuel st2 (acc1 ++ [.var (rest.take (rest.length - 1)) true])
            else parseLoop fs fuel st2 acc1
          else parseLoop fs fuel st2 (acc1 ++ [.var tag false])
/-- Fuel-indexed embedding of Go `parseSection`, parameterised by the
enclosing section's name, inverted flag and start line; returns the
children together with the state after the matching close tag.  End of
input at the open-delimiter scan is the error naming the unclosed
section. -/
def parseSectionLoop (fs : FileSys) : Nat → ParserState → List Char → Bool → Nat →
    List PElem → Option (Except MErr (List PElem × ParserState))
  | 0, _, _, _, _, _ => none
  | fuel+1, st, sname, sinv, sline, acc =>
      if (readString st st.otag).2.1 then
        some (.error (.parseErr sline ("Section " ++ String.mk sname ++ " has no closing tag")))
      else
        parseSectionTag fs fuel (readString st st.otag).2.2 sname sinv sline
          (acc ++ [.text ((readString st st.otag).1.take
            ((readString st st.otag).1.length - st.otag.length))])
/-- Tag-body scan stage of the section loop. -/
def parseSectionTag (fs : FileSys) : Nat → ParserState → List Char → Bool → Nat →
    List PElem → Option (Except MErr (List PElem × ParserState))
  | 0, _, _, _, _, _ => none
  | fuel+1, st1, sname, sinv, sline, acc1 =>
      if (scanBody st1).2.1 then
        some (.error (.parseErr (scanBody st1).2.2.curline "unmatched open tag"))
      else parseSectionSwitch fs fuel (scanBody st1).2.2 sname sinv sline acc1 (tagOf st1)
/-- Tag dispatch stage of the section loop: the `switch tag[0]` of Go
`parseSection`, including the matching/interleaved close-tag case. -/
def parseSectionSwitch (fs : FileSys) : Nat → ParserState → List Char → Bool → Nat →
    List PElem → List Char → Option (Except MErr (List PElem × ParserState))
  | 0, _, _, _, _, _, _ => none
  | fuel+1, st2, sname, sinv, sline, acc1, tag =>
      match tag with
      | [] => some (.error (.parseErr st2.curline "empty tag"))
      | c :: rest =>
          if c = '!' then parseSectionLoop fs fuel st2 sname sinv sline acc1
          else if c = '#' || c = '^' then
            match parseSectionLoop fs fuel (skipNewline st2) (trimSpace rest) (c = '^')
                (skipNewline st2).curline [] with
            | none => none
            | some (.error e) => some (.error e)
            | some (.ok pr) =>
                parseSectionLoop fs fuel pr.2 sname sinv sline
                  (acc1 ++ [.sec (trimSpace rest) (c = '^') (skipNewline st2).curline pr.1])
          else if c = '/' then
            if trimSpace rest ≠ sname then
              some (.error (.parseErr st2.curline
                ("interleaved closing tag: " ++ String.mk (trimSpace rest))))
            else some (.ok (acc1, st2))
          else if c = '>' then
            match parsePtl fs fuel st2.dir (String.mk (trimSpace rest)) with
            | none => none
            | some (.error e) => some (.error e)
            | some (.ok t) => parseSectionLoop fs fuel st2 sname sinv sline (acc1 ++ [.ptl t])
          else if c = '=' then
            if tag.getLast? ≠ some '=' then
              some (.error (.parseErr st2.curline "Invalid meta tag"))
            else
              match splitFirstSpace (trimSpace (rest.take (rest.length - 1))) with
              | some pr =>
                  parseSectionLoop fs fuel { st2 with otag := pr.1, ctag := pr.2 } sname sinv
                    sline acc1
              | none => parseSectionLoop fs fuel st2 sname sinv sline acc1
          else if c = '\x7b' then
            if tag.getLast? = some '\x7d' then
              parseSectionLoop fs fuel st2 sname sinv sline
                (acc1 ++ [.var (rest.take (rest.length - 1)) true])
            else parseSectionLoop fs fuel st2 sname sinv sline acc1
          else parseSectionLoop fs fuel st2 sname sinv sline (acc1 ++ [.var tag false])
/-- Fuel-indexed embedding of Go `parsePartial`: probe the six
candidate paths in order and parse the first existing one; error when
none exists. -/
def parsePtl (fs : FileSys) : Nat → String → String → Option (Except MErr PTemplate)
  | 0, _, _ => none
  | fuel+1, dir, name =>
      match firstExisting fs dir name with
      | none => some (.error (.genErr ("Could not find partial \x22" ++ name ++ "\x22")))
      | some f => parseFileF fs fuel f
/-- Fuel-indexed embedding of Go `ParseFile`: read the file, parse its
contents with the file own directory as the partial base directory,
and package the resulting `Template`. -/
def parseFileF (fs : FileSys) : Nat → String → Option (Except MErr PTemplate)
  | 0, _ => none
  | fuel+1, filename =>
      match List.lookup filename fs with
      | none => some (.error (.genErr ("open " ++ filename)))
      | some contents =>
          match parseLoop fs fuel (initState contents.data (dirOf filename)) [] with
          | none => none
          | some (.error e) => some (.error e)
          | some (.ok pr) =>
              some (.ok (.mk pr.2.data pr.2.otag pr.2.ctag pr.2.p pr.2.curline pr.2.dir pr.1))
end

/-- Total length of the file contents in the modelled file system,
used to size the parse fuel. -/
def fsSize (fs : FileSys) : Nat :=
  (fs.map (fun kv => kv.2.length)).foldr (fun a b => a + b) 0

/-- Fuel that is ample for parsing `data` against `fs`: every loop
iteration consumes input or ends the call, so a small multiple of the
total input size suffices for all the concrete inputs considered
here. -/
def parseFuel (fs : FileSys) (data : String) : Nat :=
  16 * (data.length + fsSize fs) + 128

/-- Embedding of Go `ParseString`, with the file system and the
`CWD` environment value passed explicitly; the result packages the
final parser state exactly as Go returns the mutated `Template`. -/
def parseStringF (fs : FileSys) (cwd : String) (data : String) :
    Option (Except MErr PTemplate) :=
  match parseLoop fs (parseFuel fs data) (initState data.data cwd) [] with
  | none => none
  | some (.error e) => some (.error e)
  | some (.ok pr) =>
      some (.ok (.mk pr.2.data pr.2.otag pr.2.ctag pr.2.p pr.2.curline pr.2.dir pr.1))

/-- Embedding of the `Template.Render` method: build the context chain
from the caller's values in argument order and render the element
tree.  `none` marks a Go panic. -/
def renderTemplateF (fuel : Nat) (t : PTemplate) (ctxs : List (Option Value)) : Option String :=
  renderListF fuel (PTemplate.elems t) ctxs

/-- Render fuel that is ample for the small templates and values used
in the concrete instances below. -/
def renderFuel : Nat := 128

/-- Embedding of the convenience function `Render(data, context...)`:
parse, returning the error's message text as the output on a parse
error, otherwise render. -/
def RenderF (fs : FileSys) (cwd : String) (data : String) (ctxs : List (Option Value)) :
    Option String :=
  match parseStringF fs cwd data with
  | none => none
  | some (.error e) => some (errMessage e)
  | some (.ok t) => renderTemplateF renderFuel t ctxs

/-- Embedding of the convenience function `RenderFile(filename,
context...)`. -/
def RenderFileF (fs : FileSys) (filename : String) (ctxs : List (Option Value)) :
    Option String :=
  match parseFileF fs (parseFuel fs filename) filename with
  | none => none
  | some (.error e) => some (errMessage e)
  | some (.ok t) => renderTemplateF renderFuel t ctxs

/-- Projection: the error of a parse result, if any. -/
def errOf : Option (Except MErr PTemplate) → Option MErr
  | some (.error e) => some e
  | _ => none

/-- Projection: did the parse succeed? -/
def isOkB : Option (Except MErr PTemplate) → Bool
  | some (.ok _) => true
  | _ => false

/-- Projection: the final open delimiter of a successfully parsed
template. -/
def otagOfR : Option (Except MErr PTemplate) → Option (List Char)
  | some (.ok t) => some (PTemplate.otag t)
  | _ => none

/-- Projection: the final close delimiter of a successfully parsed
template. -/
def ctagOfR : Option (Except MErr PTemplate) → Option (List Char)
  | some (.ok t) => some (PTemplate.ctag t)
  | _ => none



/-- Structure of a successful dot split: the name is the head, the
dot, then the rest. -/
theorem splitDot_eq : ∀ {name hd rest : List Char},
    splitDot name = some (hd, rest) → name = hd ++ '.' :: rest := by
  intro name
  induction name with
  | nil => intro hd rest h; simp [splitDot] at h
  | cons c cs ih =>
      intro hd rest h
      by_cases hc : c = '.'
      · subst hc
        simp only [splitDot, if_pos rfl, Option.some.injEq, Prod.mk.injEq] at h
        obtain ⟨h1, h2⟩ := h
        rfl
      · simp [splitDot, hc] at h
        obtain ⟨a, hpr, h1⟩ := h
        subst h1
        simp [ih hpr]

/-- The fuel argument of `lookupF` is irrelevant once it exceeds the
name's length. -/
theorem lookupF_fuel : ∀ (n : Nat) (name : List Char) (f g : Nat) (chain : List (Option Value)),
    name.length < n → name.length < f → name.length < g →
    lookupF f chain name = lookupF g chain name := by
  intro n
  induction n with
  | zero => intro name f g chain hn; omega
  | succ n ih =>
      intro name f g chain hn hf hg
      cases f with
      | zero => omega
      | succ f =>
          cases g with
          | zero => omega
          | succ g =>
              simp only [lookupF]
              cases hs : splitDot name with
              | none => rfl
              | some pr =>
                  obtain ⟨hd, rest⟩ := pr
                  by_cases hdot : name = ['.']
                  · simp [hdot]
                  · simp only [if_neg hdot]
                    have heq := splitDot_eq hs
                    have hlhd : hd.length < name.length := by
                      subst heq; simp only [List.length_append, List.length_cons]; omega
                    have hlrest : rest.length < name.length := by
                      subst heq; simp only [List.length_append, List.length_cons]; omega
                    have e1 : lookupF f chain hd = lookupF g chain hd :=
                      ih hd f g chain (by omega) (by omega) (by omega)
                    rw [e1]
                    exact ih rest f g [lookupF g chain hd] (by omega) (by omega) (by omega)

/-- `lookupLC` satisfies the defining dotted-name equation with
canonical fuels. -/
theorem lookupLC_split {name hd rest : List Char} (chain : List (Option Value))
    (hs : splitDot name = some (hd, rest)) (hdot : name ≠ ['.']) :
    lookupLC chain name = lookupLC [lookupLC chain hd] rest := by
  have heq := splitDot_eq hs
  have hlhd : hd.length < name.length := by
    subst heq; simp only [List.length_append, List.length_cons]; omega
  have hlrest : rest.length < name.length := by
    subst heq; simp only [List.length_append, List.length_cons]; omega
  show lookupF (name.length + 1) chain name = _
  conv_lhs => rw [lookupF]
  simp only [hs, if_neg hdot]
  have e1 : lookupF name.length chain hd = lookupLC chain hd :=
    lookupF_fuel (name.length + 1) hd name.length (hd.length + 1) chain (by omega) (by omega)
      (by omega)
  rw [e1]
  exact lookupF_fuel (name.length + 1) rest name.length (rest.length + 1) _ (by omega) (by omega)
    (by omega)

/-- Claim C3: a dotted name (other than `"."`) splits at its first dot;
the head is resolved against the full chain and the rest against a
singleton chain holding only that result, so the rest never falls back
to outer frames; the name `"."` resolves to the top-of-chain value
unchanged; and the two `{{a.b}}` / `{{a.c}}` examples render as
`"x"` and `""`. -/
theorem C3_dotted_resolution :
    (∀ (chain : List (Option Value)) (name hd rest : List Char),
        splitDot name = some (hd, rest) → name ≠ ['.'] →
        lookupLC chain name = lookupLC [lookupLC chain hd] rest)
    ∧ (∀ (v : Value) (chain : List (Option Value)),
        lookupLC (some v :: chain) ['.'] = some v)
    ∧ RenderF [] "" "\x7b\x7ba.b\x7d\x7d"
        [some (.vMap [("a", .vMap [("b", .vStr "x")])])] = some "x"
    ∧ RenderF [] "" "\x7b\x7ba.c\x7d\x7d"
        [some (.vMap [("a", .vMap [("b", .vStr "x")])])] = some "" := by
  refine ⟨?_, ?_, by decide, by decide⟩
  · intro chain name hd rest hs hdot
    exact lookupLC_split chain hs hdot
  · intro v chain
    rfl

/-- Witness for C3: the dotted-split equation and the dot rule hold at
concrete inputs. -/
theorem C3_witness :
    lookupLC [some (.vMap [("a", .vStr "z")])] "a.b".data =
        lookupLC [lookupLC [some (.vMap [("a", .vStr "z")])] "a".data] "b".data
    ∧ lookupLC [some (.vStr "w")] ['.'] = some (.vStr "w") :=
  ⟨C3_dotted_resolution.1 [some (.vMap [("a", .vStr "z")])] "a.b".data "a".data "b".data
      (by decide) (by decide),
    C3_dotted_resolution.2.1 (.vStr "w") []⟩

/-- Claim C2: a section value is empty exactly when it is undefined
(invalid or a nil interface), boolean `false`, or a zero-length
collection; every other value is non-empty; an empty value skips a
non-inverted section and a non-empty value skips an inverted section
(each emitting nothing); and the `{{^a}}empty{{/a}}` examples render
`"empty"` for an empty collection and `""` for a one-element one. -/
theorem C2_section_emptiness :
    (∀ v : Option Value, isEmpty v = true ↔
        (v = none ∨ v = some .vNull ∨ v = some (.vBool false) ∨ v = some (.vList [])))
    ∧ (∀ (fuel : Nat) (name : List Char) (line : Nat) (elems : List PElem)
        (chain : List (Option Value)) (c : Option Value), chain.getLast? = some c →
        isEmpty (lookupLC chain name) = true →
        renderElemF (fuel+1) (.sec name false line elems) chain = some "")
    ∧ (∀ (fuel : Nat) (name : List Char) (line : Nat) (elems : List PElem)
        (chain : List (Option Value)) (c : Option Value), chain.getLast? = some c →
        isEmpty (lookupLC chain name) = false →
        renderElemF (fuel+1) (.sec name true line elems) chain = some "")
    ∧ RenderF [] "" "\x7b\x7b^a\x7d\x7dempty\x7b\x7b/a\x7d\x7d"
        [some (.vMap [("a", .vList [])])] = some "empty"
    ∧ RenderF [] "" "\x7b\x7b^a\x7d\x7dempty\x7b\x7b/a\x7d\x7d"
        [some (.vMap [("a", .vList [.vInt 1])])] = some "" := by
  refine ⟨?_, ?_, ?_, by decide, by decide⟩
  · intro v
    match v with
    | none => simp [isEmpty]
    | some .vNull => simp [isEmpty]
    | some (.vBool b) => cases b <;> simp [isEmpty, indirectOpt, indirectV]
    | some (.vInt n) => simp [isEmpty, indirectOpt, indirectV]
    | some (.vStr s) => simp [isEmpty, indirectOpt, indirectV]
    | some (.vList xs) => simp [isEmpty, indirectOpt, indirectV, List.length_eq_zero]
    | some (.vMap prs) => simp [isEmpty, indirectOpt, indirectV]
  · intro fuel name line elems chain c hlast hemp
    simp [renderElemF, hlast, hemp]
  · intro fuel name line elems chain c hlast hemp
    simp [renderElemF, hlast, hemp]

/-- Witness for C2: the skip behaviour at concrete inputs (an
undefined name with a non-inverted section and a defined, non-empty
name with an inverted section both emit nothing). -/
theorem C2_witness :
    renderElemF 3 (.sec "z".data false 1 [.text "T".data]) [some (.vMap [("a", .vInt 0)])] = some ""
    ∧ renderElemF 3 (.sec "a".data true 1 [.text "T".data]) [some (.vMap [("a", .vInt 0)])] = some "" :=
  ⟨C2_section_emptiness.2.1 2 "z".data 1 [.text "T".data] [some (.vMap [("a", .vInt 0)])]
      (some (.vMap [("a", .vInt 0)])) rfl (by decide),
    C2_section_emptiness.2.2.1 2 "a".data 1 [.text "T".data] [some (.vMap [("a", .vInt 0)])]
      (some (.vMap [("a", .vInt 0)])) rfl (by decide)⟩

/-- Claim C4: a variable element emits nothing when its name resolves
to undefined, the stringified value passed through the five HTML
substitutions when the element is escaped (the default), and the
stringified value verbatim when it is raw (triple-delimiter form);
the two `{{v}}` / `{{{v}}}` examples render accordingly. -/
theorem C4_variable_rendering :
    (∀ (fuel : Nat) (name : List Char) (raw : Bool) (chain : List (Option Value)),
        renderElemF (fuel+1) (.var name raw) chain =
          some (match lookupLC chain name with
                | none => ""
                | some v => if raw then stringify v else htmlEscape (stringify v)))
    ∧ RenderF [] "" "\x7b\x7bv\x7d\x7d"
        [some (.vMap [("v", .vStr "<b>&\x22\x27")])] = some "&lt;b&gt;&amp;&quot;&apos;"
    ∧ RenderF [] "" "\x7b\x7b\x7bv\x7d\x7d\x7d"
        [some (.vMap [("v", .vStr "<b>&\x22\x27")])] = some "<b>&\x22\x27" := by
  refine ⟨?_, by decide, by decide⟩
  intro fuel name raw chain
  rfl

/-- Does the (indirected) section value hit one of the composite arms
of the `renderSection` switch (slice or map/struct), rather than its
`default` arm? -/
def kindIsCompo : Option Value → Bool
  | some (.vList _) => true
  | some (.vMap _) => true
  | _ => false

/-- Counterexample to claim C1: rendering
`{{#s}}{{x}}{{/s}}` with the chain `[m1, m2]`, where
`m1 = {s: true, x: "inner"}` and `m2 = {x: "outer"}`, emits
`"outer"`, while rendering the section's children against the chain
the section itself saw emits `"inner"`: the renderer does not leave
the chain unchanged for a boolean-true section value — it pushes the
chain's last frame on top. -/
theorem C1_counterexample :
    RenderF [] "" "\x7b\x7b#s\x7d\x7d\x7b\x7bx\x7d\x7d\x7b\x7b/s\x7d\x7d"
        [some (.vMap [("s", .vBool true), ("x", .vStr "inner")]),
          some (.vMap [("x", .vStr "outer")])] = some "outer"
    ∧ renderListF renderFuel [.var "x".data false]
        [some (.vMap [("s", .vBool true), ("x", .vStr "inner")]),
          some (.vMap [("x", .vStr "outer")])] = some "inner"
    ∧ ("outer" : String) ≠ "inner" := by
  refine ⟨by decide, by decide, by decide⟩

/-- Claim C1 as amended: for a non-inverted section whose non-empty
value falls into the scalar/boolean `default` arm, and for an inverted
section whose value is confirmed empty, the renderer renders the
children exactly once, but with the chain's last (least recently
entered) frame pushed as a new first frame; only for a single-frame
chain does resolution inside the children coincide with the chain the
section saw. -/
theorem C1_scalar_and_inverted_sections (fuel : Nat) (name : List Char) (line : Nat)
    (elems : List PElem) (chain : List (Option Value)) (c : Option Value)
    (hlast : chain.getLast? = some c) :
    (isEmpty (lookupLC chain name) = false →
      kindIsCompo (indirectOpt (lookupLC chain name)) = false →
      renderElemF (fuel+1) (.sec name false line elems) chain = renderEachF fuel elems chain [c])
    ∧ (isEmpty (lookupLC chain name) = true →
      renderElemF (fuel+1) (.sec name true line elems) chain = renderEachF fuel elems chain [c]) := by
  constructor
  · intro hemp hkind
    cases hv : indirectOpt (lookupLC chain name) with
    | none => simp [renderElemF, hlast, hemp, hv]
    | some w =>
        cases w with
        | vList xs => rw [hv] at hkind; simp [kindIsCompo] at hkind
        | vMap prs => rw [hv] at hkind; simp [kindIsCompo] at hkind
        | vNull => simp [renderElemF, hlast, hemp, hv]
        | vBool b => simp [renderElemF, hlast, hemp, hv]
        | vInt n => simp [renderElemF, hlast, hemp, hv]
        | vStr s => simp [renderElemF, hlast, hemp, hv]
  · intro hemp
    simp [renderElemF, hlast, hemp]

/-- Witness for C1: at a one-frame chain whose value for `s` is
boolean true the section renders its children once against the
extended chain, and likewise for an inverted section on the undefined
name `z`. -/
theorem C1_witness :
    renderElemF 4 (.sec "s".data false 1 [.text "T".data]) [some (.vMap [("s", .vBool true)])] =
        renderEachF 3 [.text "T".data] [some (.vMap [("s", .vBool true)])]
          [some (.vMap [("s", .vBool true)])]
    ∧ renderElemF 4 (.sec "z".data true 1 [.text "T".data]) [some (.vMap [("s", .vBool true)])] =
        renderEachF 3 [.text "T".data] [some (.vMap [("s", .vBool true)])]
          [some (.vMap [("s", .vBool true)])] :=
  ⟨(C1_scalar_and_inverted_sections 3 "s".data 1 [.text "T".data]
      [some (.vMap [("s", .vBool true)])] (some (.vMap [("s", .vBool true)])) rfl).1
      (by decide) (by decide),
    (C1_scalar_and_inverted_sections 3 "z".data 1 [.text "T".data]
      [some (.vMap [("s", .vBool true)])] (some (.vMap [("s", .vBool true)])) rfl).2
      (by decide)⟩

mutual
/-- A computable size measure for elements, used to state how much
render fuel is certainly enough. -/
def elemSize : PElem → Nat
  | .text _ => 1
  | .var _ _ => 1
  | .sec _ _ _ es => elemSizeL es + 1
  | .ptl (.mk _ _ _ _ _ _ es) => elemSizeL es + 1
/-- Size measure for element lists. -/
def elemSizeL : List PElem → Nat
  | [] => 0
  | e :: es => elemSize e + elemSizeL es + 1
end

/-- With an empty context chain, an element (or element list) renders
without panicking exactly when it contains no section element, given
enough fuel. -/
theorem render_empty_chain :
    ∀ fuel : Nat,
      (∀ e : PElem, elemSize e < fuel →
        ((renderElemF fuel e []).isSome ↔ containsSec e = false))
      ∧ (∀ es : List PElem, elemSizeL es < fuel →
        ((renderListF fuel es []).isSome ↔ containsSecL es = false)) := by
  intro fuel
  induction fuel with
  | zero =>
      constructor
      · intro e h
        omega
      · intro es h
        omega
  | succ fuel ih =>
      obtain ⟨ihE, ihL⟩ := ih
      constructor
      · intro e h
        cases e with
        | text s => simp [renderElemF, containsSec]
        | var name raw => simp [renderElemF, containsSec]
        | sec name inv line elems => simp [renderElemF, containsSec]
        | ptl t =>
            cases t with
            | mk d o c p l dir es =>
                have hsz : elemSizeL es < fuel := by
                  simp [elemSize] at h; omega
                simpa [renderElemF, containsSec, PTemplate.elems] using ihL es hsz
      · intro es h
        cases es with
        | nil => simp [renderListF, containsSecL]
        | cons e es =>
            have h1 : elemSize e < fuel := by simp [elemSizeL] at h; omega
            have h2 : elemSizeL es < fuel := by simp [elemSizeL] at h; omega
            have hiffE := ihE e h1
            have hiffL := ihL es h2
            cases he : renderElemF fuel e [] with
            | none =>
                have hce : containsSec e = true := by
                  rw [he] at hiffE
                  simp at hiffE
                  exact hiffE
                simp [renderListF, he, containsSecL, hce]
            | some s =>
                have hce : containsSec e = false := by
                  rw [he] at hiffE
                  simpa using hiffE
                cases hl : renderListF fuel es [] with
                | none =>
                    have hcl : containsSecL es = true := by
                      rw [hl] at hiffL
                      simp at hiffL
                      exact hiffL
                    simp [renderListF, he, hl, containsSecL, hce, hcl]
                | some r =>
                    have hcl : containsSecL es = false := by
                      rw [hl] at hiffL
                      simpa using hiffL
                    simp [renderListF, he, hl, containsSecL, hce, hcl]

/-- Claim C10: the section branch of the renderer reads the chain's
last element before the emptiness check, so a section element panics
on an empty chain whatever its name, inversion and children are; and
with zero contexts a template renders to a result (rather than
panicking) exactly when no element of it — looking through nested
sections and embedded partials — is a section element. -/
theorem C10_sections_need_context :
    (∀ (fuel : Nat) (name : List Char) (inv : Bool) (line : Nat) (elems : List PElem),
        renderElemF (fuel+1) (.sec name inv line elems) [] = none)
    ∧ (∀ (es : List PElem) (fuel : Nat), elemSizeL es < fuel →
        ((renderListF fuel es []).isSome ↔ containsSecL es = false)) := by
  constructor
  · intro fuel name inv line elems
    rfl
  · intro es fuel h
    exact (render_empty_chain fuel).2 es h

/-- Witness for C10: with zero contexts, a one-section template
panics while a text-and-variable template renders. -/
theorem C10_witness :
    ((renderListF 9 [.sec "a".data false 1 []] []).isSome ↔
        containsSecL [.sec "a".data false 1 []] = false)
    ∧ ((renderListF 9 [.text "t".data, .var "v".data false] []).isSome ↔
        containsSecL [.text "t".data, .var "v".data false] = false) :=
  ⟨C10_sections_need_context.2 [.sec "a".data false 1 []] 9 (by decide),
    C10_sections_need_context.2 [.text "t".data, .var "v".data false] 9 (by decide)⟩

/-- Counterexample to claim C6: the input `{{#a}}x{{b` leaves section
`a` unclosed at end of input, yet parsing fails with the error
`unmatched open tag` (end of input inside an unterminated tag), which
does not name the unclosed section. -/
theorem C6_counterexample :
    errOf (parseStringF [] "" "\x7b\x7b#a\x7d\x7dx\x7b\x7bb") =
        some (.parseErr 1 "unmatched open tag")
    ∧ MErr.parseErr 1 "unmatched open tag" ≠
        MErr.parseErr 1 "Section a has no closing tag" := by
  refine ⟨by decide, by decide⟩

/-- Claim C6 as amended: when end of input is reached while a section
parse scans for the next open delimiter, parsing fails with a parse
error naming the unclosed section and carrying the line number of its
opening tag (so `{{#a}}x` fails with `Section a has no closing tag`
at line 1); when end of input is instead reached inside a
partially-read tag, the parse fails with `unmatched open tag`. -/
theorem C6_unclosed_section :
    (∀ (fs : FileSys) (fuel : Nat) (st : ParserState) (sname : List Char) (sinv : Bool)
        (sline : Nat) (acc : List PElem),
        (readString st st.otag).2.1 = true →
        parseSectionLoop fs (fuel+1) st sname sinv sline acc =
          some (.error (.parseErr sline
            ("Section " ++ String.mk sname ++ " has no closing tag"))))
    ∧ errOf (parseStringF [] "" "\x7b\x7b#a\x7d\x7dx") =
        some (.parseErr 1 "Section a has no closing tag") := by
  refine ⟨?_, by decide⟩
  intro fs fuel st sname sinv sline acc h
  simp [parseSectionLoop, h]

/-- Witness for C6: a section body with no further open delimiter
makes the section parse fail with the naming error. -/
theorem C6_witness :
    parseSectionLoop [] 1 (initState "x".data "") "a".data false 1 [] =
      some (.error (.parseErr 1 ("Section " ++ String.mk "a".data ++ " has no closing tag"))) :=
  C6_unclosed_section.1 [] 0 (initState "x".data "") "a".data false 1 [] (by decide)

/-- Counterexample to claim C7: the delimiter-change tag `{{=ab=}}` is
malformed (its body has no space between a new open and a new close
delimiter), yet parsing succeeds — the tag is silently ignored rather
than reported as a parse error. -/
theorem C7_counterexample :
    isOkB (parseStringF [] "" "\x7b\x7b=ab=\x7d\x7d") = true := by
  decide

/-- Claim C7 as amended: for every delimiter-change tag, in both
parse loops: a trimmed body that does not end in `=` fails the parse
with `Invalid meta tag`; a body of length at least two flanked by `=`
whose trimmed inner part contains no space is silently ignored — the
loop continues with no error and the delimiters unchanged; and such a
body whose inner part splits at a space updates the delimiters to the
two parts.  The one-character body `=` is excluded from the
end-in-`=` statements: Go panics on `tag[1:0]` there (the total model
does not reflect that panic, see the header note).  Concrete
instances run the behaviours through the full pipeline. -/
theorem C7_delimiter_change :
    (∀ (fs : FileSys) (fuel : Nat) (st2 : ParserState) (acc1 : List PElem) (rest : List Char),
        ('=' :: rest).getLast? ≠ some '=' →
        parseLoopSwitch fs (fuel+1) st2 acc1 ('=' :: rest) =
          some (.error (.parseErr st2.curline "Invalid meta tag")))
    ∧ (∀ (fs : FileSys) (fuel : Nat) (st2 : ParserState) (acc1 : List PElem) (rest : List Char),
        rest ≠ [] → ('=' :: rest).getLast? = some '=' →
        splitFirstSpace (trimSpace (rest.take (rest.length - 1))) = none →
        parseLoopSwitch fs (fuel+1) st2 acc1 ('=' :: rest) = parseLoop fs fuel st2 acc1)
    ∧ (∀ (fs : FileSys) (fuel : Nat) (st2 : ParserState) (acc1 : List PElem) (rest : List Char)
        (pr : List Char × List Char),
        rest ≠ [] → ('=' :: rest).getLast? = some '=' →
        splitFirstSpace (trimSpace (rest.take (rest.length - 1))) = some pr →
        parseLoopSwitch fs (fuel+1) st2 acc1 ('=' :: rest) =
          parseLoop fs fuel { st2 with otag := pr.1, ctag := pr.2 } acc1)
    ∧ (∀ (fs : FileSys) (fuel : Nat) (st2 : ParserState) (sname : List Char) (sinv : Bool)
        (sline : Nat) (acc1 : List PElem) (rest : List Char),
        ('=' :: rest).getLast? ≠ some '=' →
        parseSectionSwitch fs (fuel+1) st2 sname sinv sline acc1 ('=' :: rest) =
          some (.error (.parseErr st2.curline "Invalid meta tag")))
    ∧ (∀ (fs : FileSys) (fuel : Nat) (st2 : ParserState) (sname : List Char) (sinv : Bool)
        (sline : Nat) (acc1 : List PElem) (rest : List Char),
        rest ≠ [] → ('=' :: rest).getLast? = some '=' →
        splitFirstSpace (trimSpace (rest.take (rest.length - 1))) = none →
        parseSectionSwitch fs (fuel+1) st2 sname sinv sline acc1 ('=' :: rest) =
          parseSectionLoop fs fuel st2 sname sinv sline acc1)
    ∧ (∀ (fs : FileSys) (fuel : Nat) (st2 : ParserState) (sname : List Char) (sinv : Bool)
        (sline : Nat) (acc1 : List PElem) (rest : List Char) (pr : List Char × List Char),
        rest ≠ [] → ('=' :: rest).getLast? = some '=' →
        splitFirstSpace (trimSpace (rest.take (rest.length - 1))) = some pr →
        parseSectionSwitch fs (fuel+1) st2 sname sinv sline acc1 ('=' :: rest) =
          parseSectionLoop fs fuel { st2 with otag := pr.1, ctag := pr.2 } sname sinv sline acc1)
    ∧ errOf (parseStringF [] "" "\x7b\x7b=ab\x7d\x7d") = some (.parseErr 1 "Invalid meta tag")
    ∧ isOkB (parseStringF [] "" "\x7b\x7b=ab=\x7d\x7dx") = true
    ∧ otagOfR (parseStringF [] "" "\x7b\x7b=ab=\x7d\x7dx") = some ['\x7b', '\x7b']
    ∧ ctagOfR (parseStringF [] "" "\x7b\x7b=ab=\x7d\x7dx") = some ['\x7d', '\x7d']
    ∧ RenderF [] "" "\x7b\x7b=<% %>=\x7d\x7d<%v%>\x7b\x7bv\x7d\x7d"
        [some (.vMap [("v", .vStr "X")])] = some "X\x7b\x7bv\x7d\x7d" := by
  refine ⟨?_, ?_, ?_, ?_, ?_, ?_, by decide, by decide, by decide, by decide, by decide⟩
  · intro fs fuel st2 acc1 rest ha
    rw [parseLoopSwitch]
    simp [ha]
  · intro fs fuel st2 acc1 rest hne hb hsp
    rw [parseLoopSwitch]
    simp [hb, hsp]
  · intro fs fuel st2 acc1 rest pr hne hb hsp
    rw [parseLoopSwitch]
    simp [hb, hsp]
  · intro fs fuel st2 sname sinv sline acc1 rest ha
    rw [parseSectionSwitch]
    simp [ha]
  · intro fs fuel st2 sname sinv sline acc1 rest hne hb hsp
    rw [parseSectionSwitch]
    simp [hb, hsp]
  · intro fs fuel st2 sname sinv sline acc1 rest pr hne hb hsp
    rw [parseSectionSwitch]
    simp [hb, hsp]

/-- Witness for C7: the three delimiter-change behaviours at concrete
tags, in both loops — `=ab` errors, `=ab=` is silently ignored, and
`=a b=` updates the delimiters. -/
theorem C7_witness :
    parseLoopSwitch [] 1 (initState [] "") [] "=ab".data =
        some (.error (.parseErr 1 "Invalid meta tag"))
    ∧ parseLoopSwitch [] 1 (initState [] "") [] "=ab=".data =
        parseLoop [] 0 (initState [] "") []
    ∧ parseLoopSwitch [] 1 (initState [] "") [] "=a b=".data =
        parseLoop [] 0 { initState [] "" with otag := "a".data, ctag := "b".data } []
    ∧ parseSectionSwitch [] 1 (initState [] "") "s".data false 1 [] "=ab".data =
        some (.error (.parseErr 1 "Invalid meta tag"))
    ∧ parseSectionSwitch [] 1 (initState [] "") "s".data false 1 [] "=ab=".data =
        parseSectionLoop [] 0 (initState [] "") "s".data false 1 []
    ∧ parseSectionSwitch [] 1 (initState [] "") "s".data false 1 [] "=a b=".data =
        parseSectionLoop [] 0 { initState [] "" with otag := "a".data, ctag := "b".data }
          "s".data false 1 [] :=
  ⟨C7_delimiter_change.1 [] 0 (initState [] "") [] "ab".data (by decide),
    C7_delimiter_change.2.1 [] 0 (initState [] "") [] "ab=".data (by decide) (by decide)
      (by decide),
    C7_delimiter_change.2.2.1 [] 0 (initState [] "") [] "a b=".data ("a".data, "b".data)
      (by decide) (by decide) (by decide),
    C7_delimiter_change.2.2.2.1 [] 0 (initState [] "") "s".data false 1 [] "ab".data (by decide),
    C7_delimiter_change.2.2.2.2.1 [] 0 (initState [] "") "s".data false 1 [] "ab=".data
      (by decide) (by decide) (by decide),
    C7_delimiter_change.2.2.2.2.2.1 [] 0 (initState [] "") "s".data false 1 [] "a b=".data
      ("a".data, "b".data) (by decide) (by decide) (by decide)⟩

/-- Counterexample to claim C8: after the delimiter change
`{{=@@ @@=}}` both delimiters are `@@` — the active open and close
delimiters are not distinct from each other. -/
theorem C8_counterexample :
    otagOfR (parseStringF [] "" "\x7b\x7b=@@ @@=\x7d\x7d") = some ['@', '@']
    ∧ ctagOfR (parseStringF [] "" "\x7b\x7b=@@ @@=\x7d\x7d") = some ['@', '@'] := by
  refine ⟨by decide, by decide⟩

/-- The head of a `dropWhile` result fails the predicate. -/
theorem dropWhile_head_not {p : Char → Bool} {l : List Char} {c : Char} {cs : List Char}
    (h : l.dropWhile p = c :: cs) : p c = false := by
  have hh := List.head?_dropWhile_not p l
  rw [h] at hh
  simpa using hh

/-- A trimmed string is a prefix of its left-trimmed form. -/
theorem trimSpace_prefix (s : List Char) : trimSpace s <+: s.dropWhile isSpaceChar := by
  unfold trimSpace
  have hsuf := List.dropWhile_suffix (l := (s.dropWhile isSpaceChar).reverse) isSpaceChar
  rw [← List.reverse_suffix]
  simpa using hsuf

/-- The first character of a trimmed string is not a space. -/
theorem trimSpace_head_not {s : List Char} {c : Char} {cs : List Char}
    (h : trimSpace s = c :: cs) : isSpaceChar c = false := by
  obtain ⟨t, ht⟩ := trimSpace_prefix s
  rw [h] at ht
  exact dropWhile_head_not ht.symm

/-- The last character of a trimmed string is not a space. -/
theorem trimSpace_last_not {s : List Char} {c : Char}
    (h : (trimSpace s).getLast? = some c) : isSpaceChar c = false := by
  unfold trimSpace at h
  rw [List.getLast?_reverse] at h
  cases hd : ((s.dropWhile isSpaceChar).reverse.dropWhile isSpaceChar) with
  | nil => rw [hd] at h; simp at h
  | cons c0 cs0 =>
      rw [hd] at h
      simp at h
      subst h
      exact dropWhile_head_not hd

/-- Structure of a successful first-space split. -/
theorem splitFirstSpace_eq : ∀ {s a b : List Char},
    splitFirstSpace s = some (a, b) → s = a ++ ' ' :: b := by
  intro s
  induction s with
  | nil => intro a b h; simp [splitFirstSpace] at h
  | cons c cs ih =>
      intro a b h
      by_cases hc : c = ' '
      · subst hc
        simp only [splitFirstSpace, if_pos rfl, Option.some.injEq, Prod.mk.injEq] at h
        obtain ⟨h1, h2⟩ := h
        rfl
      · simp [splitFirstSpace, hc] at h
        obtain ⟨a0, ha0, h1⟩ := h
        subst h1
        simp [ih ha0]

/-- Splitting a trimmed tag body at its first space yields two
non-empty parts: the trim leaves neither a leading nor a trailing
space, so the space cannot be first or last. -/
theorem splitFirstSpace_trim_ne {x a b : List Char}
    (h : splitFirstSpace (trimSpace x) = some (a, b)) : a ≠ [] ∧ b ≠ [] := by
  have heq := splitFirstSpace_eq h
  constructor
  · intro ha
    subst ha
    simp at heq
    have := trimSpace_head_not heq
    simp [isSpaceChar] at this
  · intro hb
    subst hb
    have hlast : (trimSpace x).getLast? = some ' ' := by
      rw [heq]
      exact List.getLast?_concat a
    have := trimSpace_last_not hlast
    simp [isSpaceChar] at this

/-- `readString` never changes the delimiters. -/
theorem readString_otag (st : ParserState) (s : List Char) :
    (readString st s).2.2.otag = st.otag := by
  unfold readString
  cases scanFor s st.p 0 (st.data.drop st.p) <;> rfl

/-- `readString` never changes the close delimiter. -/
theorem readString_ctag (st : ParserState) (s : List Char) :
    (readString st s).2.2.ctag = st.ctag := by
  unfold readString
  cases scanFor s st.p 0 (st.data.drop st.p) <;> rfl

/-- `skipNewline` never changes the delimiters. -/
theorem skipNewline_otag (st : ParserState) : (skipNewline st).otag = st.otag := by
  unfold skipNewline
  split <;> try rfl
  split <;> rfl

/-- `skipNewline` never changes the close delimiter. -/
theorem skipNewline_ctag (st : ParserState) : (skipNewline st).ctag = st.ctag := by
  unfold skipNewline
  split <;> try rfl
  split <;> rfl

/-- `scanBody` never changes the open delimiter. -/
theorem scanBody_otag (st1 : ParserState) : (scanBody st1).2.2.otag = st1.otag := by
  unfold scanBody
  split <;> simp [readString_otag]

/-- `scanBody` never changes the close delimiter. -/
theorem scanBody_ctag (st1 : ParserState) : (scanBody st1).2.2.ctag = st1.ctag := by
  unfold scanBody
  split <;> simp [readString_ctag]

/-- The parse loops preserve non-emptiness of both delimiters: the
only update site is the delimiter-change tag, whose two parts come
from splitting a trimmed body at a space and are therefore
non-empty. -/
theorem parse_tags_nonempty :
    ∀ fuel : Nat,
      (∀ (fs : FileSys) (st : ParserState) (acc es : List PElem) (st' : ParserState),
        st.otag ≠ [] → st.ctag ≠ [] →
        parseLoop fs fuel st acc = some (.ok (es, st')) → st'.otag ≠ [] ∧ st'.ctag ≠ [])
      ∧ (∀ (fs : FileSys) (st1 : ParserState) (acc1 es : List PElem) (st' : ParserState),
        st1.otag ≠ [] → st1.ctag ≠ [] →
        parseLoopTag fs fuel st1 acc1 = some (.ok (es, st')) → st'.otag ≠ [] ∧ st'.ctag ≠ [])
      ∧ (∀ (fs : FileSys) (st2 : ParserState) (acc1 es : List PElem) (tag : List Char)
          (st' : ParserState),
        st2.otag ≠ [] → st2.ctag ≠ [] →
        parseLoopSwitch fs fuel st2 acc1 tag = some (.ok (es, st')) →
          st'.otag ≠ [] ∧ st'.ctag ≠ [])
      ∧ (∀ (fs : FileSys) (st : ParserState) (sname : List Char) (sinv : Bool) (sline : Nat)
          (acc es : List PElem) (st' : ParserState),
        st.otag ≠ [] → st.ctag ≠ [] →
        parseSectionLoop fs fuel st sname sinv sline acc = some (.ok (es, st')) →
          st'.otag ≠ [] ∧ st'.ctag ≠ [])
      ∧ (∀ (fs : FileSys) (st1 : ParserState) (sname : List Char) (sinv : Bool) (sline : Nat)
          (acc1 es : List PElem) (st' : ParserState),
        st1.otag ≠ [] → st1.ctag ≠ [] →
        parseSectionTag fs fuel st1 sname sinv sline acc1 = some (.ok (es, st')) →
          st'.otag ≠ [] ∧ st'.ctag ≠ [])
      ∧ (∀ (fs : FileSys) (st2 : ParserState) (sname : List Char) (sinv : Bool) (sline : Nat)
          (acc1 es : List PElem) (tag : List Char) (st' : ParserState),
        st2.otag ≠ [] → st2.ctag ≠ [] →
        parseSectionSwitch fs fuel st2 sname sinv sline acc1 tag = some (.ok (es, st')) →
          st'.otag ≠ [] ∧ st'.ctag ≠ []) := by
  intro fuel
  induction fuel with
  | zero =>
      refine ⟨?_, ?_, ?_, ?_, ?_, ?_⟩
      · intro fs st acc es st' ho hc h; simp [parseLoop] at h
      · intro fs st1 acc1 es st' ho hc h; simp [parseLoopTag] at h
      · intro fs st2 acc1 es tag st' ho hc h; simp [parseLoopSwitch] at h
      · intro fs st sname sinv sline acc es st' ho hc h; simp [parseSectionLoop] at h
      · intro fs st1 sname sinv sline acc1 es st' ho hc h; simp [parseSectionTag] at h
      · intro fs st2 sname sinv sline acc1 es tag st' ho hc h; simp [parseSectionSwitch] at h
  | succ fuel ih =>
      obtain ⟨ihL, ihT, ihW, ihSL, ihST, ihSW⟩ := ih
      refine ⟨?_, ?_, ?_, ?_, ?_, ?_⟩
      · intro fs st acc es st' ho hc h
        rw [parseLoop] at h
        split at h
        · simp only [Option.some.injEq, Except.ok.injEq, Prod.mk.injEq] at h
          obtain ⟨h1, h2⟩ := h
          subst h2
          exact ⟨by simpa [readString_otag] using ho, by simpa [readString_ctag] using hc⟩
        · exact ihT fs _ _ es st' (by simpa [readString_otag] using ho)
            (by simpa [readString_ctag] using hc) h
      · intro fs st1 acc1 es st' ho hc h
        rw [parseLoopTag] at h
        split at h
        · simp at h
        · exact ihW fs _ _ es _ st' (by simpa [scanBody_otag] using ho)
            (by simpa [scanBody_ctag] using hc) h
      · intro fs st2 acc1 es tag st' ho hc h
        cases tag with
        | nil => rw [parseLoopSwitch] at h; simp at h
        | cons c rest =>
          rw [parseLoopSwitch] at h
          split at h
          · exact ihL fs _ _ es st' ho hc h
          · split at h
            · split at h
              · simp at h
              · simp at h
              · rename_i pr hsec
                have hpr := ihSL _ _ _ _ _ _ pr.1 pr.2
                  (by simpa [skipNewline_otag] using ho)
                  (by simpa [skipNewline_ctag] using hc) hsec
                exact ihL fs _ _ es st' hpr.1 hpr.2 h
            · split at h
              · simp at h
              · split at h
                · split at h
                  · simp at h
                  · simp at h
                  · exact ihL fs _ _ es st' ho hc h
                · split at h
                  · split at h
                    · simp at h
                    · split at h
                      · rename_i pr hsp
                        have hne := splitFirstSpace_trim_ne hsp
                        exact ihL fs _ _ es st' (by simpa using hne.1) (by simpa using hne.2) h
                      · exact ihL fs _ _ es st' ho hc h
                  · split at h
                    · split at h
                      · exact ihL fs _ _ es st' ho hc h
                      · exact ihL fs _ _ es st' ho hc h
                    · exact ihL fs _ _ es st' ho hc h
      · intro fs st sname sinv sline acc es st' ho hc h
        rw [parseSectionLoop] at h
        split at h
        · simp at h
        · exact ihST fs _ _ _ _ _ es st' (by simpa [readString_otag] using ho)
            (by simpa [readString_ctag] using hc) h
      · intro fs st1 sname sinv sline acc1 es st' ho hc h
        rw [parseSectionTag] at h
        split at h
        · simp at h
        · exact ihSW fs _ _ _ _ _ es _ st' (by simpa [scanBody_otag] using ho)
            (by simpa [scanBody_ctag] using hc) h
      · intro fs st2 sname sinv sline acc1 es tag st' ho hc h
        cases tag with
        | nil => rw [parseSectionSwitch] at h; simp at h
        | cons c rest =>
          rw [parseSectionSwitch] at h
          split at h
          · exact ihSL fs _ _ _ _ _ es st' ho hc h
          · split at h
            · split at h
              · simp at h
              · simp at h
              · rename_i pr hsec
                have hpr := ihSL _ _ _ _ _ _ pr.1 pr.2
                  (by simpa [skipNewline_otag] using ho)
                  (by simpa [skipNewline_ctag] using hc) hsec
                exact ihSL fs _ _ _ _ _ es st' hpr.1 hpr.2 h
            · split at h
              · split at h
                · simp at h
                · simp only [Option.some.injEq, Except.ok.injEq, Prod.mk.injEq] at h
                  obtain ⟨h1, h2⟩ := h
                  subst h2
                  exact ⟨ho, hc⟩
              · split at h
                · split at h
                  · simp at h
                  · simp at h
                  · exact ihSL fs _ _ _ _ _ es st' ho hc h
                · split at h
                  · split at h
                    · simp at h
                    · split at h
                      · rename_i pr hsp
                        have hne := splitFirstSpace_trim_ne hsp
                        exact ihSL fs _ _ _ _ _ es st'
                          (by simpa using hne.1) (by simpa using hne.2) h
                      · exact ihSL fs _ _ _ _ _ es st' ho hc h
                  · split at h
                    · split at h
                      · exact ihSL fs _ _ _ _ _ es st' ho hc h
                      · exact ihSL fs _ _ _ _ _ es st' ho hc h
                    · exact ihSL fs _ _ _ _ _ es st' ho hc h

/-- Claim C8 as amended: at every point during parsing the active open
and close delimiters are non-empty — they start as `{{`/`}}` and every
delimiter-change update installs two non-empty strings — but they are
not necessarily distinct from each other.  Non-emptiness propagates
through both parse loops to the final template. -/
theorem C8_delimiters_nonempty :
    (∀ (fs : FileSys) (fuel : Nat) (st : ParserState) (acc es : List PElem) (st' : ParserState),
        st.otag ≠ [] → st.ctag ≠ [] →
        parseLoop fs fuel st acc = some (.ok (es, st')) → st'.otag ≠ [] ∧ st'.ctag ≠ [])
    ∧ (∀ (fs : FileSys) (fuel : Nat) (st : ParserState) (sname : List Char) (sinv : Bool)
        (sline : Nat) (acc es : List PElem) (st' : ParserState),
        st.otag ≠ [] → st.ctag ≠ [] →
        parseSectionLoop fs fuel st sname sinv sline acc = some (.ok (es, st')) →
          st'.otag ≠ [] ∧ st'.ctag ≠ [])
    ∧ (∀ (x a b : List Char), splitFirstSpace (trimSpace x) = some (a, b) → a ≠ [] ∧ b ≠ [])
    ∧ (∀ (fs : FileSys) (cwd data : String) (t : PTemplate),
        parseStringF fs cwd data = some (.ok t) →
          PTemplate.otag t ≠ [] ∧ PTemplate.ctag t ≠ []) := by
  refine ⟨?_, ?_, ?_, ?_⟩
  · intro fs fuel st acc es st' ho hc h
    exact (parse_tags_nonempty fuel).1 fs st acc es st' ho hc h
  · intro fs fuel st sname sinv sline acc es st' ho hc h
    exact (parse_tags_nonempty fuel).2.2.2.1 fs st sname sinv sline acc es st' ho hc h
  · intro x a b h
    exact splitFirstSpace_trim_ne h
  · intro fs cwd data t h
    unfold parseStringF at h
    split at h
    · simp at h
    · simp at h
    · rename_i pr hpl
      simp only [Option.some.injEq, Except.ok.injEq] at h
      subst h
      have := (parse_tags_nonempty (parseFuel fs data)).1 fs (initState data.data cwd) [] pr.1
        pr.2 (by simp [initState]) (by simp [initState]) hpl
      simpa [PTemplate.otag, PTemplate.ctag] using this

/-- Witness for C8: the invariant applied to a concrete successful
parse, and the split lemma at a concrete delimiter body. -/
theorem C8_witness :
    ((initState [] "").otag ≠ [] ∧ (initState [] "").ctag ≠ [])
    ∧ ("<%".data ≠ [] ∧ "%>".data ≠ []) :=
  ⟨C8_delimiters_nonempty.1 [] 1 (initState [] "") [] [.text []] (initState [] "")
      (by decide) (by decide) rfl,
    C8_delimiters_nonempty.2.2.1 "<% %>".data "<%".data "%>".data (by decide)⟩

/-- If the scan loop reports end of input, the marker occurs nowhere
in the remaining data. -/
theorem scanFor_none {marker : List Char} (hm : marker ≠ []) :
    ∀ (rem : List Char) (i nl : Nat), scanFor marker i nl rem = none →
      ∀ j : Nat, marker.isPrefixOf (rem.drop j) = false := by
  intro rem
  induction rem with
  | nil =>
      intro i nl h j
      rw [List.drop_nil]
      cases hp : marker.isPrefixOf [] with
      | false => rfl
      | true =>
          exfalso
          have : marker = [] := by
            have := List.isPrefixOf_iff_prefix.mp hp
            simpa [List.prefix_nil] using this
          exact hm this
  | cons c rest ih =>
      intro i nl h j
      rw [scanFor] at h
      split at h
      · rename_i hlen
        cases hp : marker.isPrefixOf ((c :: rest).drop j) with
        | false => rfl
        | true =>
            exfalso
            have h1 := (List.isPrefixOf_iff_prefix.mp hp).length_le
            have h2 : ((c :: rest).drop j).length = (c :: rest).length - j :=
              List.length_drop j (c :: rest)
            omega
      · split at h
        · simp at h
        · rename_i hnp
          cases j with
          | zero =>
              rw [List.drop_zero]
              cases hpb : marker.isPrefixOf (c :: rest) with
              | false => rfl
              | true => exact absurd hpb hnp
          | succ j => simpa using ih (i+1) _ h j

/-- If the scan loop finds the marker, it reports the first occurrence
at or after the start, and counts the newlines at all visited
positions — those strictly before the match plus the match position
itself. -/
theorem scanFor_some {marker : List Char} :
    ∀ (rem : List Char) (i nl j ctr : Nat), scanFor marker i nl rem = some (j, ctr) →
      i ≤ j ∧ j - i ≤ rem.length ∧ marker.isPrefixOf (rem.drop (j - i)) = true ∧
        (∀ k : Nat, k < j - i → marker.isPrefixOf (rem.drop k) = false) ∧
        ctr = nl + ((rem.take (j - i + 1)).count '\n') := by
  intro rem
  induction rem with
  | nil =>
      intro i nl j ctr h
      rw [scanFor] at h
      split at h
      · simp at h
      · split at h
        · simp only [Option.some.injEq, Prod.mk.injEq] at h
          obtain ⟨h1, h2⟩ := h
          subst h1; subst h2
          rename_i hp
          refine ⟨Nat.le_refl i, by simp, by simpa using hp, by simp, by simp⟩
        · simp at h
  | cons c rest ih =>
      intro i nl j ctr h
      rw [scanFor] at h
      split at h
      · simp at h
      · split at h
        · rename_i hp
          simp only [Option.some.injEq, Prod.mk.injEq] at h
          obtain ⟨h1, h2⟩ := h
          subst h1; subst h2
          refine ⟨Nat.le_refl i, by simp, by simpa using hp, by simp, ?_⟩
          simp only [Nat.sub_self, Nat.zero_add, List.take_succ_cons, List.take_zero,
            List.count_cons, List.count_nil]
          by_cases hcn : c = '\n' <;> simp [hcn]
        · rename_i hnp
          have hres := ih (i+1) _ j ctr h
          obtain ⟨hle, hlen, hpre, hmin, hctr⟩ := hres
          have hij : i + 1 ≤ j := hle
          refine ⟨by omega, ?_, ?_, ?_, ?_⟩
          · simp only [List.length_cons]
            omega
          · have hd : (c :: rest).drop (j - i) = rest.drop (j - (i + 1)) := by
              have he : j - i = (j - (i + 1)) + 1 := by omega
              rw [he]
              rfl
            rw [hd]
            exact hpre
          · intro k hk
            cases k with
            | zero =>
                rw [List.drop_zero]
                cases hpb : marker.isPrefixOf (c :: rest) with
                | false => rfl
                | true => exact absurd hpb hnp
            | succ k =>
                have hd : (c :: rest).drop (k + 1) = rest.drop k := rfl
                rw [hd]
                exact hmin k (by omega)
          · have hj1 : j - i + 1 = (j - (i + 1) + 1) + 1 := by omega
            rw [hj1]
            have ht : (c :: rest).take ((j - (i + 1) + 1) + 1) =
                c :: rest.take (j - (i + 1) + 1) := rfl
            rw [ht, List.count_cons, hctr]
            by_cases hcn : c = '\n' <;> (simp [hcn]; try omega)

/-- Counterexample to claim C9: scanning for the marker `{{` in
`ab{{cd` returns `ab{{` — the text up to AND INCLUDING the marker —
not the text `ab` preceding it. -/
theorem C9_counterexample :
    (readString (initState "ab\x7b\x7bcd".data "") ['\x7b', '\x7b']).1 = "ab\x7b\x7b".data
    ∧ "ab\x7b\x7b".data ≠ "ab".data := by
  refine ⟨by decide, by decide⟩

/-- Claim C9 as amended: for a non-empty marker, `readString` returns
the text from the read position up to and including the first
occurrence of the marker, advances the read position just past that
occurrence, and adds to the line counter the number of newlines at the
visited positions — the text before the marker plus the marker's
first character; when the marker does not occur in the remaining
input, it returns all remaining text with the end-of-input signal and
leaves the state unchanged. -/
theorem C9_readString_contract (st : ParserState) (marker : List Char) (hm : marker ≠ []) :
    ((readString st marker).2.1 = true →
        readString st marker = (st.data.drop st.p, true, st)
        ∧ ∀ k : Nat, marker.isPrefixOf (st.data.drop (st.p + k)) = false)
    ∧ ((readString st marker).2.1 = false →
        ∃ j : Nat, st.p ≤ j ∧ marker.isPrefixOf (st.data.drop j) = true
          ∧ (∀ k : Nat, st.p ≤ k → k < j → marker.isPrefixOf (st.data.drop k) = false)
          ∧ readString st marker =
              ((st.data.take (j + marker.length)).drop st.p, false,
                { st with p := j + marker.length,
                          curline := st.curline +
                            ((st.data.drop st.p).take (j + 1 - st.p)).count '\n' })) := by
  unfold readString
  cases hscan : scanFor marker st.p 0 (st.data.drop st.p) with
  | none =>
      constructor
      · intro _
        refine ⟨rfl, ?_⟩
        intro k
        have hx := scanFor_none hm (st.data.drop st.p) st.p 0 hscan k
        rw [List.drop_drop] at hx
        exact hx
      · intro hfalse
        simp at hfalse
  | some pr =>
      obtain ⟨j, ctr⟩ := pr
      have hres := scanFor_some (st.data.drop st.p) st.p 0 j ctr hscan
      obtain ⟨hle, hlen, hpre, hmin, hctr⟩ := hres
      constructor
      · intro htrue
        simp at htrue
      · intro _
        refine ⟨j, hle, ?_, ?_, ?_⟩
        · rw [List.drop_drop] at hpre
          have he : st.p + (j - st.p) = j := by omega
          rw [he] at hpre
          exact hpre
        · intro k hk1 hk2
          have hx := hmin (k - st.p) (by omega)
          rw [List.drop_drop] at hx
          have he : st.p + (k - st.p) = k := by omega
          rw [he] at hx
          exact hx
        · have he2 : j - st.p + 1 = j + 1 - st.p := by omega
          rw [hctr, he2]
          simp

/-- Witness for C9: the contract applied to a concrete state and
marker, in the branch where the marker occurs. -/
theorem C9_witness :
    ∃ j : Nat, 0 ≤ j
      ∧ List.isPrefixOf ['\x7b', '\x7b'] ((initState "ab\x7b\x7bcd".data "").data.drop j) = true
      ∧ (∀ k : Nat, 0 ≤ k → k < j →
          List.isPrefixOf ['\x7b', '\x7b'] ((initState "ab\x7b\x7bcd".data "").data.drop k) = false)
      ∧ readString (initState "ab\x7b\x7bcd".data "") ['\x7b', '\x7b'] =
          (((initState "ab\x7b\x7bcd".data "").data.take (j + 2)).drop 0, false,
            { initState "ab\x7b\x7bcd".data "" with
                p := j + 2,
                curline := 1 + (((initState "ab\x7b\x7bcd".data "").data.drop 0).take
                  (j + 1 - 0)).count '\n' }) := by
  have hx := (C9_readString_contract (initState "ab\x7b\x7bcd".data "") ['\x7b', '\x7b']
    (by decide)).2 (by decide)
  obtain ⟨j, h1, h2, h3, h4⟩ := hx
  exact ⟨j, h1, h2, h3, by simpa using h4⟩

/-- Claim C5: a partial reference `N` under base directory `D` probes,
in order, `D/N`, `D/N.mustache`, `D/N.stache`, `N`, `N.mustache`,
`N.stache`; the first existing path is parsed (recursively, its own
directory becoming the base) and embedded; when none exists the parse
fails with an error saying the partial could not be found.  In
particular `{{>header}}` with only `header.mustache` present resolves
to that file, and a partial parsed from `sub/outer.mustache` resolves
its own partials under `sub/`. -/
theorem C5_partial_resolution :
    (∀ dir name : String, candidateFiles dir name =
        [joinPath dir name, joinPath dir (name ++ ".mustache"), joinPath dir (name ++ ".stache"),
          name, name ++ ".mustache", name ++ ".stache"])
    ∧ (∀ (fs : FileSys) (fuel : Nat) (dir name : String),
        firstExisting fs dir name = none →
        parsePtl fs (fuel+1) dir name =
          some (.error (.genErr ("Could not find partial \x22" ++ name ++ "\x22"))))
    ∧ (∀ (fs : FileSys) (fuel : Nat) (dir name f : String),
        firstExisting fs dir name = some f →
        parsePtl fs (fuel+1) dir name = parseFileF fs fuel f)
    ∧ RenderF [("header.mustache", "HI")] "" "\x7b\x7b>header\x7d\x7d" [] = some "HI"
    ∧ errOf (parseStringF [] "" "\x7b\x7b>x\x7d\x7d") =
        some (.genErr "Could not find partial \x22x\x22")
    ∧ RenderFileF [("sub/outer.mustache", "\x7b\x7b>inner\x7d\x7d"), ("sub/inner.mustache", "IN")]
        "sub/outer.mustache" [] = some "IN" := by
  refine ⟨?_, ?_, ?_, by decide, by decide, by decide⟩
  · intro dir name
    rfl
  · intro fs fuel dir name h
    rw [parsePtl, h]
  · intro fs fuel dir name f h
    rw [parsePtl, h]

/-- Witness for C5: the not-found and first-found branches at concrete
file systems. -/
theorem C5_witness :
    parsePtl [] 1 "" "x" = some (.error (.genErr "Could not find partial \x22x\x22"))
    ∧ parsePtl [("header.mustache", "HI")] 1 "" "header" =
        parseFileF [("header.mustache", "HI")] 0 "header.mustache" :=
  ⟨C5_partial_resolution.2.1 [] 0 "" "x" (by decide),
    C5_partial_resolution.2.2.1 [("header.mustache", "HI")] 0 "" "header" "header.mustache"
      (by decide)⟩
